import Mathlib

/-!
Verification of the `@hl8/database` subsystem (connection manager, entity
manager façade, migration executor, migration file utilities) of the
hl8-saas repository, as a shallow embedding in Lean 4.

Pure functions of the source are translated directly; stateful methods are
embedded as explicit state-passing functions returning an `Except` value
(the `throw`/`return` outcome of the TypeScript method) together with the
updated state and, where a claim needs it, a trace of observable effects.
Behaviour of external collaborators that the source merely delegates to
(the MikroORM migrator and `em.transactional`) is modelled from the spec
and marked as such in the doc comments.
-/

set_option maxHeartbeats 1600000

namespace HL8

/-! ## Character classes used by the migration filename grammar

The source regexes use the classes `\d`, `[a-zA-Z]` and `[a-zA-Z0-9]`,
which coincide with `Char.isDigit`, `Char.isAlpha` and their union. -/

/-- Membership in the regex class `[a-zA-Z0-9]`. -/
def isAlnumChar (c : Char) : Bool := c.isAlpha || c.isDigit

/-- Numeric value of a decimal digit character (the effect of
`parseInt` on a single digit). -/
def digitVal (c : Char) : Nat := c.toNat - 48

/-- Value of `parseInt(s, 10)` on a string of decimal digits,
big-endian, as the source applies it to the 13-digit capture group. -/
def digitsToNat (cs : List Char) : Nat := cs.foldl (fun a c => 10 * a + digitVal c) 0

/-- Embedding of the regex match against
`^(\d{13})-([a-zA-Z][a-zA-Z0-9]*)\.(ts|js)$` shared by
`MigrationUtils.validateMigrationFileName` (which only tests it) and
`MigrationUtils.parseMigrationFileName` (which reads groups 1 and 2).
Since `.` is not in `[a-zA-Z0-9]`, the regex is matched without
backtracking: exactly 13 digits, a dash, a maximal alphanumeric run whose
first character must be a letter, then a literal `.ts` or `.js` ending the
string. Returns the two capture groups (digits, name). -/
def matchMigrationFileName (cs : List Char) : Option (List Char × List Char) :=
  if (decide ((cs.take 13).length = 13) && (cs.take 13).all Char.isDigit &&
      decide ((cs.drop 13).headD ' ' = '-') &&
      (((cs.drop 13).tail.takeWhile isAlnumChar).headD '0').isAlpha &&
      (decide ((cs.drop 13).tail.dropWhile isAlnumChar = ['.', 't', 's']) ||
       decide ((cs.drop 13).tail.dropWhile isAlnumChar = ['.', 'j', 's']))) = true then
    some (cs.take 13, (cs.drop 13).tail.takeWhile isAlnumChar)
  else none

/-- Embedding of `MigrationUtils.validateMigrationFileName`
(migration-utils.ts, lines 300-303): tests the filename against the
pattern and returns a boolean. -/
def validateMigrationFileName (s : String) : Bool :=
  (matchMigrationFileName s.toList).isSome

/-- Embedding of `MigrationUtils.parseMigrationFileName`
(migration-utils.ts, lines 319-329): on a match returns
`{ timestamp: parseInt(group1, 10), name: group2 }`, otherwise the
explicit no-match value `null` (here `none`); it is a total function and
never throws. -/
def parseMigrationFileName (s : String) : Option (Nat × String) :=
  (matchMigrationFileName s.toList).map fun p => (digitsToNat p.1, String.mk p.2)

/-- The spec's filename grammar
`^\d{13}-[A-Za-z][A-Za-z0-9]*\.(ts|js)$`, written independently of the
matcher as an explicit decomposition of the string, to compare the source
regex against the spec's words. -/
def MatchesGrammar (s : String) : Prop :=
  ∃ ds nm ext : List Char,
    s.toList = ds ++ '-' :: (nm ++ '.' :: ext) ∧
    ds.length = 13 ∧
    (∀ c ∈ ds, c.isDigit = true) ∧
    (∃ c0 nmTl, nm = c0 :: nmTl ∧ c0.isAlpha = true ∧ ∀ c ∈ nmTl, isAlnumChar c = true) ∧
    (ext = ['t', 's'] ∨ ext = ['j', 's'])

/-- Decimal digit character for `d % 10`, as produced by JavaScript
number-to-string conversion for one digit position. -/
def digitChar (d : Nat) : Char := Char.ofNat (48 + d % 10)

/-- Big-endian decimal rendering of `n` with recursion fuel: the digit
string produced by the JavaScript template literal for a number below
`10 ^ fuel`. -/
def natToDigitsAux : Nat → Nat → List Char
  | 0, _ => []
  | fuel + 1, n =>
    if n = 0 then [] else natToDigitsAux fuel (n / 10) ++ [digitChar (n % 10)]

/-- Decimal rendering of a 13-digit millisecond timestamp, as the CLI
caller interpolates it into the migration filename. -/
def natToDigitList (n : Nat) : List Char := natToDigitsAux 13 n

/-- Well-formedness of a migration name: matches `[A-Za-z][A-Za-z0-9]*`. -/
def nameWF (nm : String) : Bool :=
  match nm.toList with
  | [] => false
  | c :: cs => c.isAlpha && cs.all isAlnumChar

/-- The filename a caller builds for a migration: `<timestamp>-<name>.<ext>`. -/
def mkMigrationFileName (t : Nat) (nm : String) (ext : String) : String :=
  String.mk (natToDigitList t ++ '-' :: (nm.toList ++ '.' :: ext.toList))

/-! ## Error values

Each distinct `throw new Error(message)` site of the source is embedded as
an error value. The source never defines dedicated error classes; the
constructor names record which component raised the error. -/

/-- Errors raised in the embedded subsystem. `driver` stands for an error
raised by the underlying database driver or ORM (the environment);
`connectionUnavailable` is the error thrown by
`ConnectionManager.getPostgresConnection` / `getMongoConnection` when the
injected handle is absent; `unsupportedDatabase` is the `default` branch
of the target switches. `migrationError` is modelled from the spec: the
spec's error taxonomy defines `MigrationError` as a wrapper around the
underlying driver error, but the source defines no such wrapper class —
the constructor exists only so claims about that wrapping are statable
against what the code actually raises. -/
inductive DbError where
  | driver (msg : String)
  | connectionUnavailable (msg : String)
  | unsupportedDatabase (msg : String)
  | migrationError (cause : DbError)
deriving DecidableEq, Repr

/-- Database target selector, the string union `'postgresql' | 'mongodb'`. -/
inductive DatabaseTarget where
  | postgresql
  | mongodb
deriving DecidableEq, Repr

/-! ## Connection manager (connection-manager.ts)

A `ConnHandle` is the opaque injected `EntityManager`: `connected` tracks
whether its underlying connection is open, and the two `Fails` flags are
the environment's choice of whether the driver-side `close()` and the
trivial health probe reject. -/

structure ConnHandle where
  connected : Bool
  closeFails : Bool
  probeFails : Bool
deriving DecidableEq, Repr

/-- State of `ConnectionManager`: the two injected `EntityManager` fields.
They are set at construction (dependency injection) and no method of the
class ever reassigns them. -/
structure ConnectionManager where
  postgresEm : Option ConnHandle
  mongoEm : Option ConnHandle
deriving DecidableEq, Repr

/-- Embedding of `ConnectionManager.getPostgresConnection` (lines
108-113): `if (!this.postgresEm) throw new Error('PostgreSQL连接不可用')`,
otherwise return the handle. -/
def getPostgresConnection (m : ConnectionManager) : Except DbError ConnHandle :=
  match m.postgresEm with
  | none => .error (.connectionUnavailable "PostgreSQL连接不可用")
  | some h => .ok h

/-- Embedding of `ConnectionManager.getMongoConnection` (lines 128-133). -/
def getMongoConnection (m : ConnectionManager) : Except DbError ConnHandle :=
  match m.mongoEm with
  | none => .error (.connectionUnavailable "MongoDB连接不可用")
  | some h => .ok h

/-- Embedding of `ConnectionManager.initializeConnections` (lines
248-260): `connect()` is awaited on each handle that is present. Failures
of the underlying driver connect are not modelled (no claim depends on
them); the effect is that present handles become connected. -/
def initializeConnections (m : ConnectionManager) : ConnectionManager :=
  { postgresEm := m.postgresEm.map fun h => { h with connected := true }
    mongoEm := m.mongoEm.map fun h => { h with connected := true } }

/-- Embedding of `ConnectionManager.onModuleInit` (lines 67-77): runs
`initializeConnections` inside try/catch and re-throws on failure (the
modelled `initializeConnections` cannot fail, see above). -/
def onModuleInit (m : ConnectionManager) : ConnectionManager × Except DbError Unit :=
  (initializeConnections m, .ok ())

/-- Observable close attempts during `closeConnections`. -/
inductive CloseEvent where
  | pgCloseAttempt
  | mongoCloseAttempt
deriving DecidableEq, Repr

/-- Embedding of the PostgreSQL half of
`ConnectionManager.closeConnections` (lines 268-281): `if (this.postgresEm)
await this.postgresEm.getConnection().close()`. The attempt is recorded;
if the driver-side close rejects, the awaited rejection propagates. -/
def closePostgres (m : ConnectionManager) : ConnectionManager × List CloseEvent × Except DbError Unit :=
  match m.postgresEm with
  | none => (m, [], .ok ())
  | some h =>
    if h.closeFails then (m, [.pgCloseAttempt], .error (.driver "postgres close failed"))
    else ({ m with postgresEm := some { h with connected := false } }, [.pgCloseAttempt], .ok ())

/-- Embedding of the MongoDB half of `ConnectionManager.closeConnections`. -/
def closeMongo (m : ConnectionManager) : ConnectionManager × List CloseEvent × Except DbError Unit :=
  match m.mongoEm with
  | none => (m, [], .ok ())
  | some h =>
    if h.closeFails then (m, [.mongoCloseAttempt], .error (.driver "mongo close failed"))
    else ({ m with mongoEm := some { h with connected := false } }, [.mongoCloseAttempt], .ok ())

/-- Embedding of `ConnectionManager.closeConnections` (lines 268-281): the
two halves run sequentially with no per-half try/catch, so a rejection
while closing PostgreSQL propagates immediately and the MongoDB close is
never reached. -/
def closeConnections (m : ConnectionManager) : ConnectionManager × List CloseEvent × Except DbError Unit :=
  match closePostgres m with
  | (m1, t1, .error e) => (m1, t1, .error e)
  | (m1, t1, .ok _) =>
    match closeMongo m1 with
    | (m2, t2, r) => (m2, t1 ++ t2, r)

/-- Embedding of `ConnectionManager.onModuleDestroy` (lines 84-93), the
spec's `shutdown()`: wraps `closeConnections` in try/catch, logs any error
and does not re-throw, so the hook always completes normally. -/
def onModuleDestroy (m : ConnectionManager) : ConnectionManager × List CloseEvent × Except DbError Unit :=
  match closeConnections m with
  | (m1, t, _) => (m1, t, .ok ())

/-- Embedding of the try-block body of `ConnectionManager.isPostgresHealthy`
(lines 183-191): `await this.postgresEm.execute('SELECT 1')`. When the
injected field is absent the property access itself throws (a TypeError),
and when the probe rejects the await throws; both land in the catch. -/
def probePostgres (m : ConnectionManager) : Except DbError Unit :=
  match m.postgresEm with
  | none => .error (.driver "TypeError: cannot read execute of undefined")
  | some h => if h.probeFails then .error (.driver "SELECT 1 failed") else .ok ()

/-- Embedding of the try-block body of `ConnectionManager.isMongoHealthy`
(lines 207-215): `await this.mongoEm.execute('ping')`. -/
def probeMongo (m : ConnectionManager) : Except DbError Unit :=
  match m.mongoEm with
  | none => .error (.driver "TypeError: cannot read execute of undefined")
  | some h => if h.probeFails then .error (.driver "ping failed") else .ok ()

/-- Embedding of `ConnectionManager.isPostgresHealthy`: the probe inside
try/catch; any caught error is logged and reported as `false`. -/
def isPostgresHealthy (m : ConnectionManager) : Except DbError Bool :=
  match probePostgres m with
  | .ok _ => .ok true
  | .error _ => .ok false

/-- Embedding of `ConnectionManager.isMongoHealthy`. -/
def isMongoHealthy (m : ConnectionManager) : Except DbError Bool :=
  match probeMongo m with
  | .ok _ => .ok true
  | .error _ => .ok false

/-! ## Migration file utilities: filesystem side (migration-utils.ts) -/

/-- Filesystem state: file contents by path. Directories are not tracked
(`mkdirp` is recursive and idempotent and never touches file contents);
directory creation is recorded as an event only. -/
structure FileSystem where
  files : String → Option String

/-- Observable filesystem effects of `MigrationUtils.createFile`. -/
inductive FsEvent where
  | madeDirs (path : String)
  | wroteFile (path : String) (content : String)
deriving DecidableEq, Repr

/-- Embedding of the body of `MigrationUtils.fileExists` (lines 159-168)
with the `fs.existsSync` call abstracted as `check`: the try/catch returns
the primitive's boolean, and maps any thrown error to `false`. -/
def fileExistsImpl (check : Except DbError Bool) : Except DbError Bool :=
  match check with
  | .ok b => .ok b
  | .error _ => .ok false

/-- Embedding of `MigrationUtils.fileExists` against the filesystem state:
`fs.existsSync` reports whether the path is present. -/
def fileExists (fs : FileSystem) (filePath : String) : Except DbError Bool :=
  fileExistsImpl (.ok (fs.files filePath).isSome)

/-- The boolean the caller observes from `await this.fileExists(...)`. -/
def fileExistsB (fs : FileSystem) (filePath : String) : Bool :=
  match fileExists fs filePath with
  | .ok b => b
  | .error _ => false

/-- Embedding of `MigrationUtils.createFile` (lines 88-115): ensure the
parent directories exist, then — when `override` is false and the file
already exists — log a warning and return without writing; otherwise write
the content (the write itself is modelled as succeeding; no claim depends
on `fs.writeFile` rejecting). -/
def createFile (fs : FileSystem) (filePath content : String) (override : Bool) :
    FileSystem × List FsEvent × Except DbError Unit :=
  if (!override && fileExistsB fs filePath) = true then
    (fs, [.madeDirs filePath], .ok ())
  else
    ({ files := fun q => if q = filePath then some content else fs.files q },
     [.madeDirs filePath, .wroteFile filePath content], .ok ())

/-! ## Entity manager façade (entity-manager.ts) -/

/-- Visible persisted state of one database target, as a list of
key/value writes (most recent first). -/
abbrev DbState := List (String × String)

/-- One persistence operation performed by a transaction work callback. -/
inductive WorkOp where
  | write (key value : String)
  | opFail (msg : String)
deriving DecidableEq, Repr

/-- Modelled from the spec: the work callback passed to `transaction`
performs its persistence operations sequentially against the scoped unit
of work and may raise partway through, leaving earlier writes pending in
the transaction. -/
def runWork : List WorkOp → DbState → Except DbError DbState
  | [], st => .ok st
  | .write k v :: rest, st => runWork rest ((k, v) :: st)
  | .opFail msg :: _, _ => .error (.driver msg)

/-- Modelled from the spec: MikroORM's `em.transactional(callback)` — the
collaborator `EntityManagerService.transaction` delegates to, which is not
part of this repository — runs the callback in a scoped unit of work; if
the callback resolves, its writes are committed and become the visible
state; if it throws, the transaction is rolled back (the visible state is
unchanged) and the error is re-thrown. -/
def transactional (work : DbState → Except DbError DbState) (st : DbState) :
    DbState × Except DbError Unit :=
  match work st with
  | .ok st2 => (st2, .ok ())
  | .error e => (st, .error e)

/-- Embedding of `EntityManagerService.getEntityManager` (lines 318-327):
the switch over the target, dispatching to the connection manager. The
`default` branch is unreachable for the closed target type. -/
def getEntityManagerFor (m : ConnectionManager) (db : DatabaseTarget) : Except DbError ConnHandle :=
  match db with
  | .postgresql => getPostgresConnection m
  | .mongodb => getMongoConnection m

/-- Embedding of `EntityManagerService.transaction` (lines 273-287):
resolve the entity manager, run `em.transactional(callback)`, and on any
caught error log it and re-throw it unchanged. -/
def transaction (m : ConnectionManager) (db : DatabaseTarget)
    (work : DbState → Except DbError DbState) (st : DbState) :
    DbState × Except DbError Unit :=
  match getEntityManagerFor m db with
  | .error e => (st, .error e)
  | .ok _ => transactional work st

/-! ## Migration executor (migration-executor.ts) -/

/-- A migration unit on disk: name, timestamp, and the environment's
choice of whether its `up` / `down` bodies reject when executed. -/
structure MigrationUnit where
  name : String
  timestamp : Nat
  upFails : Bool
  downFails : Bool
deriving DecidableEq, Repr

/-- Migrator-visible state for one database target: the pending units and
the executed units in execution order (most recent last). -/
structure MigState where
  pending : List MigrationUnit
  executed : List MigrationUnit
deriving DecidableEq, Repr

/-- Timestamp order on migration units. -/
def tsLE (a b : MigrationUnit) : Prop := a.timestamp ≤ b.timestamp

instance : DecidableRel tsLE := fun a b => Nat.decLe a.timestamp b.timestamp

instance : IsTotal MigrationUnit tsLE := ⟨fun a b => Nat.le_total a.timestamp b.timestamp⟩

instance : IsTrans MigrationUnit tsLE := ⟨fun _ _ _ => Nat.le_trans⟩

/-- The pending units in ascending timestamp order, the order in which the
migrator processes them. -/
def sortPending (s : MigState) : List MigrationUnit := List.insertionSort tsLE s.pending

/-- Modelled from the spec: the apply loop of the MikroORM migrator's
`up()` (the collaborator `MigrationExecutor.runMigrations` delegates to,
not part of this repository): each unit is applied in turn; on the first
unit whose `up` rejects the loop stops and throws, and later units are
never attempted. Returns the units applied (in order) and the outcome. -/
def applyUnits : List MigrationUnit → List MigrationUnit × Except DbError Unit
  | [] => ([], .ok ())
  | u :: rest =>
    if u.upFails then ([], .error (.driver ("migration up failed: " ++ u.name)))
    else ((applyUnits rest).1.cons u, (applyUnits rest).2)

/-- Modelled from the spec: `orm.getMigrator().up()` applies every pending
unit strictly in ascending timestamp order, stopping at the first failure. -/
def migratorUp (s : MigState) : List MigrationUnit × Except DbError Unit :=
  applyUnits (sortPending s)

/-- Modelled from the spec: `orm.getMigrator().down()` (no argument)
reverts exactly the most recently executed unit, and throws when no
executed units exist (`revertLastMigration ... fails ... if no executed
units exist`). -/
def migratorDown (s : MigState) : MigState × Except DbError Unit :=
  match s.executed.getLast? with
  | none => (s, .error (.driver "No migrations to revert"))
  | some u =>
    if u.downFails then (s, .error (.driver ("migration down failed: " ++ u.name)))
    else ({ pending := u :: s.pending, executed := s.executed.dropLast }, .ok ())

/-- Log lines the migration executor emits (console and logger merged). -/
inductive LogEvent where
  | startRun (db : DatabaseTarget)
  | migrationOk (nm : String)
  | appliedCount (n : Nat)
  | noPending
  | runFailed
  | startRevert (db : DatabaseTarget)
  | revertOk
  | revertFailed
  | nameRequired
  | generated (fileName : String)
  | noSchemaChanges
  | generateFailed
  | created (fileName : String)
  | createFailed
deriving DecidableEq, Repr

/-- Embedding of `MigrationExecutor.getMikroORM` (lines 283-292): the
switch over the target, resolving the connection through the connection
manager (the `getKnex()` call is opaque here). The `default` branch is
unreachable for the closed target type. -/
def getMikroORM (m : ConnectionManager) (db : DatabaseTarget) : Except DbError ConnHandle :=
  match db with
  | .postgresql => getPostgresConnection m
  | .mongodb => getMongoConnection m

/-- Embedding of `MigrationExecutor.runMigrations` (lines 70-92): resolve
the ORM and await `up()` inside try/catch. On success, when units were
applied each gets a success line plus a count line, otherwise a
no-pending line; the method returns normally (void). On any caught error
the failure is logged and the error re-thrown unchanged. Returns the
units the migrator applied, the log, and the outcome. -/
def runMigrations (m : ConnectionManager) (db : DatabaseTarget) (s : MigState) :
    List MigrationUnit × List LogEvent × Except DbError Unit :=
  match getMikroORM m db with
  | .error e => ([], [.startRun db, .runFailed], .error e)
  | .ok _ =>
    match migratorUp s with
    | (applied, .error e) => (applied, [.startRun db, .runFailed], .error e)
    | (applied, .ok _) =>
      if applied.length > 0 then
        (applied,
         .startRun db :: (applied.map fun u => LogEvent.migrationOk u.name) ++
           [.appliedCount applied.length],
         .ok ())
      else (applied, [.startRun db, .noPending], .ok ())

/-- Embedding of `MigrationExecutor.revertLastMigration` (lines 107-122):
resolve the ORM and await `down()` inside try/catch; on a caught error log
and re-throw it unchanged. -/
def revertLastMigration (m : ConnectionManager) (db : DatabaseTarget) (s : MigState) :
    MigState × List LogEvent × Except DbError Unit :=
  match getMikroORM m db with
  | .error e => (s, [.startRevert db, .revertFailed], .error e)
  | .ok _ =>
    match migratorDown s with
    | (s2, .ok _) => (s2, [.startRevert db, .revertOk], .ok ())
    | (s2, .error e) => (s2, [.startRevert db, .revertFailed], .error e)

/-- Embedding of `MigrationExecutor.generateMigration` (lines 138-166):
`if (!name) { log; return; }` — the empty string is the only falsy string —
then resolve the ORM and await `createMigration()`, whose result `gen` is
the environment's: an error (caught, logged, re-thrown), no migration
(no schema changes), or a generated file name. -/
def generateMigration (m : ConnectionManager) (db : DatabaseTarget) (name : String)
    (gen : Except DbError (Option String)) : List LogEvent × Except DbError Unit :=
  if name = "" then ([.nameRequired], .ok ())
  else
    match getMikroORM m db with
    | .error e => ([.generateFailed], .error e)
    | .ok _ =>
      match gen with
      | .error e => ([.generateFailed], .error e)
      | .ok none => ([.noSchemaChanges], .ok ())
      | .ok (some f) => ([.generated f], .ok ())

/-- Embedding of `MigrationExecutor.createMigration` (lines 182-207): the
same empty-name early return, then `createMigration(name)`; a present
result is logged, an absent one silently ignored. -/
def createMigration (m : ConnectionManager) (db : DatabaseTarget) (name : String)
    (gen : Except DbError (Option String)) : List LogEvent × Except DbError Unit :=
  if name = "" then ([.nameRequired], .ok ())
  else
    match getMikroORM m db with
    | .error e => ([.createFailed], .error e)
    | .ok _ =>
      match gen with
      | .error e => ([.createFailed], .error e)
      | .ok none => ([], .ok ())
      | .ok (some f) => ([.created f], .ok ())

/-! ## Concrete instances used by counterexamples and witnesses -/

/-- An injected handle whose driver operations all succeed. -/
def okHandle : ConnHandle := { connected := true, closeFails := false, probeFails := false }

/-- A handle whose driver-side `close()` rejects. -/
def badCloseHandle : ConnHandle := { connected := true, closeFails := true, probeFails := false }

/-- A handle whose health probe rejects. -/
def badProbeHandle : ConnHandle := { connected := true, closeFails := false, probeFails := true }

/-- A manager with both handles injected and healthy. -/
def cmOk : ConnectionManager := { postgresEm := some okHandle, mongoEm := some okHandle }

/-- A manager whose PostgreSQL close rejects. -/
def cmBadPgClose : ConnectionManager := { postgresEm := some badCloseHandle, mongoEm := some okHandle }

/-- A migration state with one pending unit whose `up` rejects. -/
def sOneFailing : MigState :=
  { pending := [{ name := "M1", timestamp := 1700000000000, upFails := true, downFails := false }]
    executed := [] }

/-- A migration state with nothing executed. -/
def sNoneExecuted : MigState := { pending := [], executed := [] }

/-- A manager whose handles are injected but whose probes reject. -/
def cmBadProbe : ConnectionManager :=
  { postgresEm := some badProbeHandle, mongoEm := some badProbeHandle }

/-- Pending unit with the smallest timestamp, applying cleanly. -/
def uT1 : MigrationUnit := { name := "A", timestamp := 1, upFails := false, downFails := false }

/-- Pending unit with the middle timestamp, whose `up` rejects. -/
def uT2 : MigrationUnit := { name := "B", timestamp := 2, upFails := true, downFails := false }

/-- Pending unit with the largest timestamp, applying cleanly. -/
def uT3 : MigrationUnit := { name := "C", timestamp := 3, upFails := false, downFails := false }

/-- A migration state with three pending units T1 < T2 < T3, listed out of
order, where the middle one fails. -/
def sThree : MigState := { pending := [uT3, uT1, uT2], executed := [] }

/-- A one-file filesystem. -/
def fsOne : FileSystem := { files := fun q => if q = "m.ts" then some "old" else none }

/-- Decides whether an outcome failed with the spec's `MigrationError`
wrapper (used to state, closed-form, that the code never produces one). -/
def isMigrationErrorFailure : Except DbError Unit → Bool
  | .error (.migrationError _) => true
  | _ => false

/-! ## Lemmas about the filename matcher and decimal rendering -/

theorem mk_toList (s : String) : String.mk s.toList = s := rfl

theorem takeWhile_append_stop (p : Char → Bool) (xs : List Char) (y : Char) (ys : List Char)
    (hxs : ∀ x ∈ xs, p x = true) (hy : p y = false) :
    (xs ++ y :: ys).takeWhile p = xs ∧ (xs ++ y :: ys).dropWhile p = y :: ys := by
  induction xs with
  | nil =>
    constructor
    · simp [List.takeWhile_cons, hy]
    · simp [List.dropWhile_cons, hy]
  | cons a as ih =>
    have ha : p a = true := hxs a (by simp)
    have hrest : ∀ x ∈ as, p x = true := fun x hx => hxs x (by simp [hx])
    obtain ⟨h1, h2⟩ := ih hrest
    constructor
    · simp [List.takeWhile_cons, ha, h1]
    · simp [List.dropWhile_cons, ha, h2]

theorem digitChar_isDigit (d : Nat) : (digitChar d).isDigit = true := by
  have h : d % 10 < 10 := Nat.mod_lt _ (by norm_num)
  unfold digitChar
  generalize hg : d % 10 = k at h ⊢
  interval_cases k <;> decide

theorem digitVal_digitChar (d : Nat) : digitVal (digitChar d) = d % 10 := by
  have h : d % 10 < 10 := Nat.mod_lt _ (by norm_num)
  unfold digitChar digitVal
  generalize hg : d % 10 = k at h ⊢
  interval_cases k <;> decide

theorem digitsToNat_append_single (cs : List Char) (c : Char) :
    digitsToNat (cs ++ [c]) = 10 * digitsToNat cs + digitVal c := by
  unfold digitsToNat
  rw [List.foldl_append]
  rfl

theorem natToDigitsAux_inv : ∀ fuel n : Nat, n < 10 ^ fuel →
    digitsToNat (natToDigitsAux fuel n) = n
  | 0, n, h => by
    have h0 : n = 0 := by simpa using h
    subst h0
    rfl
  | fuel + 1, n, h => by
    unfold natToDigitsAux
    by_cases h0 : n = 0
    · subst h0
      simp
      rfl
    · rw [if_neg h0, digitsToNat_append_single]
      have hdiv : n / 10 < 10 ^ fuel := by
        have hpow : (10 : Nat) ^ (fuel + 1) = 10 ^ fuel * 10 := pow_succ 10 fuel
        omega
      rw [natToDigitsAux_inv fuel (n / 10) hdiv, digitVal_digitChar]
      omega

theorem natToDigitsAux_digits : ∀ fuel n : Nat, ∀ c ∈ natToDigitsAux fuel n, c.isDigit = true
  | 0, n => by
    intro c hc
    simp [natToDigitsAux] at hc
  | fuel + 1, n => by
    intro c hc
    unfold natToDigitsAux at hc
    by_cases h0 : n = 0
    · simp [h0] at hc
    · rw [if_neg h0, List.mem_append] at hc
      rcases hc with hc | hc
      · exact natToDigitsAux_digits fuel (n / 10) c hc
      · have : c = digitChar (n % 10) := by simpa using hc
        subst this
        exact digitChar_isDigit _

theorem natToDigitsAux_length : ∀ fuel n : Nat, 10 ^ fuel ≤ n → n < 10 ^ (fuel + 1) →
    (natToDigitsAux (fuel + 1) n).length = fuel + 1
  | 0, n, hlo, hhi => by
    have h0 : n ≠ 0 := by simpa using Nat.one_le_iff_ne_zero.mp hlo
    unfold natToDigitsAux
    rw [if_neg h0]
    simp [natToDigitsAux]
  | fuel + 1, n, hlo, hhi => by
    have hp1 : (10 : Nat) ^ (fuel + 1 + 1) = 10 ^ (fuel + 1) * 10 := pow_succ 10 (fuel + 1)
    have hp2 : (10 : Nat) ^ (fuel + 1) = 10 ^ fuel * 10 := pow_succ 10 fuel
    have h0 : n ≠ 0 := by
      have : 0 < (10 : Nat) ^ (fuel + 1) := pow_pos (by norm_num) _
      omega
    unfold natToDigitsAux
    rw [if_neg h0, List.length_append]
    have ih := natToDigitsAux_length fuel (n / 10) (by omega) (by omega)
    rw [ih]
    rfl

theorem isAlnumChar_of_alpha (c : Char) (h : c.isAlpha = true) : isAlnumChar c = true := by
  simp [isAlnumChar, h]

theorem matchMigrationFileName_complete
    (ds nm ext : List Char)
    (hds : ds.length = 13) (hdig : ∀ c ∈ ds, c.isDigit = true)
    (c0 : Char) (nmTl : List Char) (hnm : nm = c0 :: nmTl)
    (hc0 : c0.isAlpha = true) (htl : ∀ c ∈ nmTl, isAlnumChar c = true)
    (hext : ext = ['t', 's'] ∨ ext = ['j', 's']) :
    matchMigrationFileName (ds ++ '-' :: (nm ++ '.' :: ext)) = some (ds, nm) := by
  have htake : (ds ++ '-' :: (nm ++ '.' :: ext)).take 13 = ds := List.take_left' hds
  have hdrop : (ds ++ '-' :: (nm ++ '.' :: ext)).drop 13 = '-' :: (nm ++ '.' :: ext) :=
    List.drop_left' hds
  have hall : ∀ x ∈ nm, isAlnumChar x = true := by
    intro x hx
    rw [hnm] at hx
    rcases List.mem_cons.mp hx with h | h
    · subst h; exact isAlnumChar_of_alpha _ hc0
    · exact htl x h
  have hdot : isAlnumChar '.' = false := by decide
  obtain ⟨htw, hdw⟩ := takeWhile_append_stop isAlnumChar nm '.' ext hall hdot
  subst hnm
  unfold matchMigrationFileName
  rw [htake, hdrop]
  simp only [List.headD_cons, List.tail_cons, htw, hdw]
  split
  · rfl
  · next hcond =>
    refine absurd ?_ hcond
    rcases hext with h | h <;> subst h <;>
      simp [hds, hc0, List.all_eq_true] <;> exact hdig

theorem matchMigrationFileName_sound (cs ds nm : List Char)
    (h : matchMigrationFileName cs = some (ds, nm)) :
    ∃ ext : List Char,
      cs = ds ++ '-' :: (nm ++ '.' :: ext) ∧
      ds.length = 13 ∧
      (∀ c ∈ ds, c.isDigit = true) ∧
      (∃ c0 nmTl, nm = c0 :: nmTl ∧ c0.isAlpha = true ∧ ∀ c ∈ nmTl, isAlnumChar c = true) ∧
      (ext = ['t', 's'] ∨ ext = ['j', 's']) := by
  unfold matchMigrationFileName at h
  split at h
  case isFalse => exact absurd h (by simp)
  case isTrue hcond =>
    simp only [Option.some.injEq, Prod.mk.injEq] at h
    obtain ⟨hds, hnm⟩ := h
    simp only [Bool.and_eq_true, Bool.or_eq_true, decide_eq_true_eq, List.all_eq_true] at hcond
    obtain ⟨⟨⟨⟨hlen, hdig⟩, hdash⟩, halpha⟩, hrest3⟩ := hcond
    cases hd : cs.drop 13 with
    | nil =>
      rw [hd] at hdash
      exact absurd hdash (by decide)
    | cons y rest2 =>
      rw [hd] at hdash halpha hrest3 hnm
      simp only [List.headD_cons, List.tail_cons] at hdash halpha hrest3 hnm
      subst hdash
      cases htw : rest2.takeWhile isAlnumChar with
      | nil =>
        rw [htw] at halpha
        exact absurd halpha (by decide)
      | cons c nmTl2 =>
        rw [htw] at halpha hnm
        simp only [List.headD_cons] at halpha
        have hext : ∃ ext : List Char,
            rest2.dropWhile isAlnumChar = '.' :: ext ∧ (ext = ['t', 's'] ∨ ext = ['j', 's']) := by
          rcases hrest3 with h3 | h3
          · exact ⟨['t', 's'], h3, Or.inl rfl⟩
          · exact ⟨['j', 's'], h3, Or.inr rfl⟩
        obtain ⟨ext, hdw, hextv⟩ := hext
        refine ⟨ext, ?_, ?_, ?_, ?_, hextv⟩
        · have hsplit : cs = cs.take 13 ++ cs.drop 13 := (List.take_append_drop 13 cs).symm
          have hr2 : rest2 = rest2.takeWhile isAlnumChar ++ rest2.dropWhile isAlnumChar :=
            (List.takeWhile_append_dropWhile isAlnumChar rest2).symm
          rw [hsplit, hds, hd, hr2, htw, hdw, hnm]
        · rw [← hds]; exact hlen
        · intro cc hcc; rw [← hds] at hcc; exact hdig cc hcc
        · refine ⟨c, nmTl2, hnm.symm, halpha, ?_⟩
          intro cc hcc
          have hmem : cc ∈ rest2.takeWhile isAlnumChar := by
            rw [htw]; exact List.mem_cons_of_mem _ hcc
          exact List.mem_takeWhile_imp hmem

theorem natToDigitList_length (t : Nat) (hlo : 10 ^ 12 ≤ t) (hhi : t < 10 ^ 13) :
    (natToDigitList t).length = 13 :=
  natToDigitsAux_length 12 t hlo hhi

theorem natToDigitList_digits (t : Nat) : ∀ c ∈ natToDigitList t, c.isDigit = true :=
  natToDigitsAux_digits 13 t

theorem digitsToNat_natToDigitList (t : Nat) (hhi : t < 10 ^ 13) :
    digitsToNat (natToDigitList t) = t :=
  natToDigitsAux_inv 13 t hhi

theorem parse_mkMigrationFileName (t : Nat) (nm : String) (ext : String)
    (hlo : 10 ^ 12 ≤ t) (hhi : t < 10 ^ 13) (hwf : nameWF nm = true)
    (hext : ext = "ts" ∨ ext = "js") :
    parseMigrationFileName (mkMigrationFileName t nm ext) = some (t, nm) := by
  have hnl : ∃ c0 nmTl, nm.toList = c0 :: nmTl ∧ c0.isAlpha = true ∧
      ∀ c ∈ nmTl, isAlnumChar c = true := by
    unfold nameWF at hwf
    cases hl : nm.toList with
    | nil => rw [hl] at hwf; simp at hwf
    | cons c0 nmTl =>
      rw [hl] at hwf
      simp only [Bool.and_eq_true, List.all_eq_true] at hwf
      exact ⟨c0, nmTl, rfl, hwf.1, hwf.2⟩
  obtain ⟨c0, nmTl, hl, hc0, htl⟩ := hnl
  have hextl : ext.toList = ['t', 's'] ∨ ext.toList = ['j', 's'] := by
    rcases hext with h | h <;> subst h
    · exact Or.inl rfl
    · exact Or.inr rfl
  have hmatch := matchMigrationFileName_complete (natToDigitList t) nm.toList ext.toList
    (natToDigitList_length t hlo hhi) (natToDigitList_digits t)
    c0 nmTl hl hc0 htl hextl
  unfold parseMigrationFileName mkMigrationFileName
  have htl2 : (String.mk (natToDigitList t ++ '-' :: (nm.toList ++ '.' :: ext.toList))).toList
      = natToDigitList t ++ '-' :: (nm.toList ++ '.' :: ext.toList) := rfl
  rw [htl2, hmatch]
  simp only [Option.map_some']
  rw [digitsToNat_natToDigitList t hhi, mk_toList]

theorem validate_iff_grammar (s : String) :
    validateMigrationFileName s = true ↔ MatchesGrammar s := by
  constructor
  · intro h
    unfold validateMigrationFileName at h
    cases hm : matchMigrationFileName s.toList with
    | none => rw [hm] at h; simp at h
    | some p =>
      obtain ⟨ds, nm⟩ := p
      obtain ⟨ext, h1, h2, h3, h4, h5⟩ := matchMigrationFileName_sound _ _ _ hm
      exact ⟨ds, nm, ext, h1, h2, h3, h4, h5⟩
  · rintro ⟨ds, nm, ext, h1, h2, h3, ⟨c0, nmTl, hnm, hc0, htl⟩, h5⟩
    unfold validateMigrationFileName
    rw [h1, matchMigrationFileName_complete ds nm ext h2 h3 c0 nmTl hnm hc0 htl h5]
    rfl

theorem parse_none_iff_invalid (s : String) :
    parseMigrationFileName s = none ↔ validateMigrationFileName s = false := by
  unfold parseMigrationFileName validateMigrationFileName
  cases matchMigrationFileName s.toList <;> simp

/-- C4: for any name matching `[A-Za-z][A-Za-z0-9]*` and any 13-digit
timestamp, `parseMigrationFileName` applied to `<timestamp>-<name>.ts` or
`<timestamp>-<name>.js` recovers exactly that timestamp and that name;
`validateMigrationFileName` accepts exactly the strings matching the
grammar `^\d{13}-[A-Za-z][A-Za-z0-9]*\.(ts|js)$`; and on every other input
`parseMigrationFileName` returns the explicit no-match value (both
functions are total, so neither ever throws). -/
theorem migration_filename_roundtrip_and_grammar :
    (∀ t nm, 10 ^ 12 ≤ t → t < 10 ^ 13 → nameWF nm = true →
      parseMigrationFileName (mkMigrationFileName t nm "ts") = some (t, nm) ∧
      parseMigrationFileName (mkMigrationFileName t nm "js") = some (t, nm)) ∧
    (∀ s, validateMigrationFileName s = true ↔ MatchesGrammar s) ∧
    (∀ s, parseMigrationFileName s = none ↔ validateMigrationFileName s = false) := by
  refine ⟨?_, validate_iff_grammar, parse_none_iff_invalid⟩
  intro t nm hlo hhi hwf
  exact ⟨parse_mkMigrationFileName t nm "ts" hlo hhi hwf (Or.inl rfl),
         parse_mkMigrationFileName t nm "js" hlo hhi hwf (Or.inr rfl)⟩

/-- Witness for C4 at a concrete input: the round-trip at timestamp
1234567890123 and name AddUserTable, obtained by instantiating the claim
theorem and discharging its hypotheses by computation. -/
theorem migration_filename_roundtrip_witness :
    parseMigrationFileName (mkMigrationFileName 1234567890123 "AddUserTable" "ts") =
      some (1234567890123, "AddUserTable") :=
  (migration_filename_roundtrip_and_grammar.1 1234567890123 "AddUserTable"
    (by norm_num) (by norm_num) (by decide)).1

/-! ## Lemmas about the migration executor -/

theorem applyUnits_fst (l : List MigrationUnit) :
    (applyUnits l).1 = l.takeWhile fun u => !u.upFails := by
  induction l with
  | nil => rfl
  | cons u rest ih =>
    by_cases h : u.upFails = true
    · simp [applyUnits, h, List.takeWhile_cons]
    · simp only [Bool.not_eq_true] at h
      simp [applyUnits, h, List.takeWhile_cons, ih]

theorem runMigrations_eq_ok (m : ConnectionManager) (db : DatabaseTarget) (s : MigState)
    (h : ConnHandle) (hconn : getMikroORM m db = .ok h)
    (applied : List MigrationUnit) (hm : migratorUp s = (applied, .ok ())) :
    runMigrations m db s =
      if applied.length > 0 then
        (applied,
         .startRun db :: (applied.map fun u => LogEvent.migrationOk u.name) ++
           [.appliedCount applied.length],
         .ok ())
      else (applied, [.startRun db, .noPending], .ok ()) := by
  unfold runMigrations
  rw [hconn, hm]

theorem runMigrations_eq_error (m : ConnectionManager) (db : DatabaseTarget) (s : MigState)
    (h : ConnHandle) (hconn : getMikroORM m db = .ok h)
    (applied : List MigrationUnit) (e : DbError) (hm : migratorUp s = (applied, .error e)) :
    runMigrations m db s = (applied, [.startRun db, .runFailed], .error e) := by
  unfold runMigrations
  rw [hconn, hm]

theorem runMigrations_fst (m : ConnectionManager) (db : DatabaseTarget) (s : MigState)
    (h : ConnHandle) (hconn : getMikroORM m db = .ok h) :
    (runMigrations m db s).1 = (migratorUp s).1 := by
  unfold runMigrations
  rw [hconn]
  rcases hm : migratorUp s with ⟨applied, r⟩
  cases r with
  | error e => simp
  | ok u =>
    cases u
    by_cases hl : applied.length > 0 <;> simp [hl]

/-- C1: for every database target, `runMigrations` applies the pending
units strictly in ascending timestamp order and stops at the first
failure: the applied units are exactly the maximal all-succeeding prefix
of the pending units sorted by timestamp — so none is applied out of
order, none is skipped, and no unit with a larger timestamp than a failing
unit is ever applied. -/
theorem runMigrations_applies_in_timestamp_order
    (m : ConnectionManager) (db : DatabaseTarget) (s : MigState)
    (h : ConnHandle) (hconn : getMikroORM m db = .ok h) :
    (runMigrations m db s).1 = (sortPending s).takeWhile (fun u => !u.upFails) ∧
    List.Sorted tsLE (runMigrations m db s).1 ∧
    (∃ rest, sortPending s = (runMigrations m db s).1 ++ rest) ∧
    (∀ u v, u ∈ s.pending → v ∈ s.pending → u.timestamp < v.timestamp → u.upFails = true →
      v ∉ (runMigrations m db s).1) := by
  have h1 : (runMigrations m db s).1 = (migratorUp s).1 := runMigrations_fst m db s h hconn
  have htw : (runMigrations m db s).1 = (sortPending s).takeWhile (fun u => !u.upFails) := by
    rw [h1]; exact applyUnits_fst _
  have hsorted : List.Sorted tsLE (sortPending s) := List.sorted_insertionSort tsLE s.pending
  have hperm : List.Perm (sortPending s) s.pending := List.perm_insertionSort tsLE s.pending
  have happ : (sortPending s).takeWhile (fun u => !u.upFails) ++
      (sortPending s).dropWhile (fun u => !u.upFails) = sortPending s :=
    List.takeWhile_append_dropWhile _ _
  refine ⟨htw, ?_, ?_, ?_⟩
  · rw [htw]
    have hsub : List.Sublist ((sortPending s).takeWhile (fun u => !u.upFails)) (sortPending s) :=
      List.IsPrefix.sublist ⟨(sortPending s).dropWhile (fun u => !u.upFails), happ⟩
    exact hsorted.sublist hsub
  · exact ⟨(sortPending s).dropWhile (fun u => !u.upFails), by rw [htw, happ]⟩
  · intro u v hu hv hlt hfail hvmem
    rw [htw] at hvmem
    have huL : u ∈ sortPending s := hperm.mem_iff.mpr hu
    have hunotTW : u ∉ (sortPending s).takeWhile (fun u => !u.upFails) := by
      intro hmem
      have hpu := List.mem_takeWhile_imp hmem
      rw [hfail] at hpu
      simp at hpu
    have huDW : u ∈ (sortPending s).dropWhile (fun u => !u.upFails) := by
      rw [← happ] at huL
      rcases List.mem_append.mp huL with hmem | hmem
      · exact absurd hmem hunotTW
      · exact hmem
    have hpw : List.Pairwise tsLE ((sortPending s).takeWhile (fun u => !u.upFails) ++
        (sortPending s).dropWhile (fun u => !u.upFails)) := by
      rw [happ]; exact hsorted
    have hcross := (List.pairwise_append.mp hpw).2.2
    have hvu : tsLE v u := hcross v hvmem u huDW
    unfold tsLE at hvu
    omega

/-- Witness for C1 at a concrete state: three pending units T1 < T2 < T3
listed out of order with T2 failing — only T1 is applied, and in
particular T3 is not. -/
theorem runMigrations_order_witness :
    (runMigrations cmOk .postgresql sThree).1 = [uT1] ∧
    uT3 ∉ (runMigrations cmOk .postgresql sThree).1 := by
  have h := runMigrations_applies_in_timestamp_order cmOk .postgresql sThree okHandle rfl
  constructor
  · rw [h.1]; rfl
  · exact h.2.2.2 uT2 uT3 (by decide) (by decide) (by decide) (by decide)

/-- C2: for every database target and every work function, if the work
raises partway through then no partial writes made inside it are visible
afterward — the visible state is exactly the initial state — and the
rollback has happened by the time the error is re-raised to the caller
with the transaction outcome. -/
theorem transaction_rolls_back_on_failure
    (m : ConnectionManager) (db : DatabaseTarget) (ops : List WorkOp) (st : DbState)
    (h : ConnHandle) (hconn : getEntityManagerFor m db = .ok h)
    (e : DbError) (hfail : runWork ops st = .error e) :
    transaction m db (runWork ops) st = (st, .error e) := by
  unfold transaction
  rw [hconn]
  unfold transactional
  rw [hfail]

/-- Witness for C2 at a concrete input: the work writes one row and then
raises; afterwards the visible state is still empty and the raised error
is re-delivered. -/
theorem transaction_rollback_witness :
    transaction cmOk .postgresql (runWork [WorkOp.write "k" "v", WorkOp.opFail "boom"]) [] =
      ([], .error (.driver "boom")) :=
  transaction_rolls_back_on_failure cmOk .postgresql
    [WorkOp.write "k" "v", WorkOp.opFail "boom"] [] okHandle rfl (.driver "boom") rfl

/-- C3 counterexample: the claim says a failing run fails with
`MigrationError` wrapping the underlying cause; at this concrete input
(one pending unit whose `up` rejects) `runMigrations` re-raises the raw
driver error and no `MigrationError` wrapper appears. -/
theorem runMigrations_error_unwrapped_counterexample :
    (runMigrations cmOk .postgresql sOneFailing).2.2 =
      .error (.driver "migration up failed: M1") ∧
    isMigrationErrorFailure (runMigrations cmOk .postgresql sOneFailing).2.2 = false :=
  ⟨rfl, rfl⟩

/-- C3 (amended): `runMigrations` reports the applied count in its log
rather than in its return value (the method returns void); with zero
pending units it returns normally with a no-pending report and zero units
applied, not an error; and on failure it stops and re-raises the
underlying error unchanged instead of wrapping it in a `MigrationError`. -/
theorem runMigrations_reporting
    (m : ConnectionManager) (db : DatabaseTarget) (s : MigState)
    (h : ConnHandle) (hconn : getMikroORM m db = .ok h) :
    (s.pending = [] →
      runMigrations m db s = ([], [.startRun db, .noPending], .ok ())) ∧
    ((migratorUp s).2 = .ok () → (migratorUp s).1 ≠ [] →
      LogEvent.appliedCount (runMigrations m db s).1.length ∈ (runMigrations m db s).2.1) ∧
    (∀ e, (migratorUp s).2 = .error e → (runMigrations m db s).2.2 = .error e) := by
  refine ⟨?_, ?_, ?_⟩
  · intro hnil
    have hs : migratorUp s = ([], .ok ()) := by
      unfold migratorUp sortPending
      rw [hnil]
      rfl
    rw [runMigrations_eq_ok m db s h hconn [] hs]
    rfl
  · intro hok hne
    rcases hm : migratorUp s with ⟨applied, r⟩
    rw [hm] at hok hne
    simp only at hok hne
    rw [hok] at hm
    have hlen : applied.length > 0 := List.length_pos.mpr hne
    rw [runMigrations_eq_ok m db s h hconn applied hm, if_pos hlen]
    simp
  · intro e he
    rcases hm : migratorUp s with ⟨applied, r⟩
    rw [hm] at he
    simp only at he
    rw [he] at hm
    rw [runMigrations_eq_error m db s h hconn applied e hm]

/-- Witness for C3 (amended) at a concrete input: zero pending units give
a normal return with the no-pending report, and the failing state delivers
the underlying driver error unchanged. -/
theorem runMigrations_reporting_witness :
    runMigrations cmOk .postgresql sNoneExecuted =
      ([], [.startRun .postgresql, .noPending], .ok ()) ∧
    (runMigrations cmOk .postgresql sOneFailing).2.2 =
      .error (.driver "migration up failed: M1") := by
  constructor
  · exact (runMigrations_reporting cmOk .postgresql sNoneExecuted okHandle rfl).1 rfl
  · exact (runMigrations_reporting cmOk .postgresql sOneFailing okHandle rfl).2.2
      (.driver "migration up failed: M1") rfl

/-! ## Lemmas about the connection manager lifecycle -/

theorem getPostgresConnection_isOk (m : ConnectionManager) :
    (getPostgresConnection m).isOk = m.postgresEm.isSome := by
  cases hm : m.postgresEm <;> simp [getPostgresConnection, hm, Except.isOk, Except.toBool]

theorem getMongoConnection_isOk (m : ConnectionManager) :
    (getMongoConnection m).isOk = m.mongoEm.isSome := by
  cases hm : m.mongoEm <;> simp [getMongoConnection, hm, Except.isOk, Except.toBool]

theorem onModuleInit_preserves_fields (m : ConnectionManager) :
    ((onModuleInit m).1).postgresEm.isSome = m.postgresEm.isSome ∧
    ((onModuleInit m).1).mongoEm.isSome = m.mongoEm.isSome := by
  cases hp : m.postgresEm <;> cases hq : m.mongoEm <;>
    simp [onModuleInit, initializeConnections, hp, hq]

theorem onModuleDestroy_preserves_fields (m : ConnectionManager) :
    ((onModuleDestroy m).1).postgresEm.isSome = m.postgresEm.isSome ∧
    ((onModuleDestroy m).1).mongoEm.isSome = m.mongoEm.isSome := by
  rcases m with ⟨pg, mo⟩
  cases pg with
  | none =>
    cases mo with
    | none => exact ⟨rfl, rfl⟩
    | some h =>
      by_cases hq : h.closeFails <;>
        simp [onModuleDestroy, closeConnections, closePostgres, closeMongo, hq]
  | some h =>
    by_cases hp : h.closeFails
    · simp [onModuleDestroy, closeConnections, closePostgres, hp]
    · cases mo with
      | none => simp [onModuleDestroy, closeConnections, closePostgres, closeMongo, hp]
      | some h2 =>
        by_cases hq : h2.closeFails <;>
          simp [onModuleDestroy, closeConnections, closePostgres, closeMongo, hp, hq]

/-- C5 counterexample: the claim says `getConnection` fails with
`ConnectionUnavailable` after `shutdown()`; at this concrete input the
handle fields are still populated after `onModuleDestroy`, so both getters
return the (closed) handle and neither fails. The same holds before
`initialize()`: `cmOk` is a freshly constructed manager. -/
theorem getConnection_after_shutdown_counterexample :
    getPostgresConnection cmOk = .ok okHandle ∧
    getPostgresConnection (onModuleDestroy cmOk).1 =
      .ok { okHandle with connected := false } ∧
    getMongoConnection (onModuleDestroy cmOk).1 =
      .ok { okHandle with connected := false } :=
  ⟨rfl, rfl, rfl⟩

/-- C5 (amended): `getConnection` returns the injected handle whenever the
corresponding field is non-null and fails with the connection-unavailable
error exactly when it was never injected; its success is unaffected by
`initialize()` and by `shutdown()` (in particular it still succeeds after
shutdown, contrary to the original claim). -/
theorem getConnection_presence (m : ConnectionManager) :
    (∀ h, m.postgresEm = some h → getPostgresConnection m = .ok h) ∧
    (m.postgresEm = none →
      getPostgresConnection m = .error (.connectionUnavailable "PostgreSQL连接不可用")) ∧
    (∀ h, m.mongoEm = some h → getMongoConnection m = .ok h) ∧
    (m.mongoEm = none →
      getMongoConnection m = .error (.connectionUnavailable "MongoDB连接不可用")) ∧
    (getPostgresConnection (onModuleInit m).1).isOk = (getPostgresConnection m).isOk ∧
    (getPostgresConnection (onModuleDestroy m).1).isOk = (getPostgresConnection m).isOk ∧
    (getMongoConnection (onModuleInit m).1).isOk = (getMongoConnection m).isOk ∧
    (getMongoConnection (onModuleDestroy m).1).isOk = (getMongoConnection m).isOk := by
  refine ⟨?_, ?_, ?_, ?_, ?_, ?_, ?_, ?_⟩
  · intro h hm; unfold getPostgresConnection; rw [hm]
  · intro hm; unfold getPostgresConnection; rw [hm]
  · intro h hm; unfold getMongoConnection; rw [hm]
  · intro hm; unfold getMongoConnection; rw [hm]
  · rw [getPostgresConnection_isOk, getPostgresConnection_isOk,
      (onModuleInit_preserves_fields m).1]
  · rw [getPostgresConnection_isOk, getPostgresConnection_isOk,
      (onModuleDestroy_preserves_fields m).1]
  · rw [getMongoConnection_isOk, getMongoConnection_isOk,
      (onModuleInit_preserves_fields m).2]
  · rw [getMongoConnection_isOk, getMongoConnection_isOk,
      (onModuleDestroy_preserves_fields m).2]

/-- Witness for C5 (amended) at concrete inputs: an injected handle is
returned as-is, and a missing handle yields the connection-unavailable
error. -/
theorem getConnection_presence_witness :
    getPostgresConnection cmOk = .ok okHandle ∧
    getMongoConnection { postgresEm := some okHandle, mongoEm := none } =
      .error (.connectionUnavailable "MongoDB连接不可用") :=
  ⟨(getConnection_presence cmOk).1 okHandle rfl,
   (getConnection_presence { postgresEm := some okHandle, mongoEm := none }).2.2.2.1 rfl⟩

/-- C6 counterexample: the claim says reverting with no executed units
fails with `MigrationError`; at this concrete input the raised error is
the raw underlying no-migrations error and no `MigrationError` wrapper
appears (the source defines no such wrapper and re-raises unchanged). -/
theorem revertLast_error_unwrapped_counterexample :
    (revertLastMigration cmOk .mongodb sNoneExecuted).2.2 =
      .error (.driver "No migrations to revert") ∧
    isMigrationErrorFailure (revertLastMigration cmOk .mongodb sNoneExecuted).2.2 = false :=
  ⟨rfl, rfl⟩

/-- C6 (amended): `revertLastMigration` fails when no units have ever
executed — re-raising the underlying error unchanged rather than a
`MigrationError` wrapper — and when executed units exist it reverts
exactly the most recently executed unit, moving it back to pending and
leaving all earlier executed units in place. -/
theorem revertLastMigration_behaviour
    (m : ConnectionManager) (db : DatabaseTarget) (s : MigState)
    (h : ConnHandle) (hconn : getMikroORM m db = .ok h) :
    (s.executed = [] →
      revertLastMigration m db s =
        (s, [.startRevert db, .revertFailed], .error (.driver "No migrations to revert"))) ∧
    (∀ es u, s.executed = es ++ [u] → u.downFails = false →
      revertLastMigration m db s =
        ({ pending := u :: s.pending, executed := es },
         [.startRevert db, .revertOk], .ok ())) := by
  constructor
  · intro hnil
    have hd : migratorDown s = (s, .error (.driver "No migrations to revert")) := by
      unfold migratorDown
      rw [hnil]
      rfl
    unfold revertLastMigration
    rw [hconn, hd]
  · intro es u hex hdf
    have hlast : s.executed.getLast? = some u := by rw [hex]; simp
    have hdl : s.executed.dropLast = es := by rw [hex]; simp
    have hd : migratorDown s =
        ({ pending := u :: s.pending, executed := es }, .ok ()) := by
      unfold migratorDown
      rw [hlast]
      simp [hdf, hdl]
    unfold revertLastMigration
    rw [hconn, hd]

/-- Witness for C6 (amended) at concrete inputs: the empty-history revert
fails with the underlying error, and a one-unit history reverts exactly
that unit. -/
theorem revertLastMigration_witness :
    revertLastMigration cmOk .mongodb sNoneExecuted =
      (sNoneExecuted, [.startRevert .mongodb, .revertFailed],
       .error (.driver "No migrations to revert")) ∧
    revertLastMigration cmOk .postgresql { pending := [], executed := [uT1] } =
      ({ pending := [uT1], executed := [] }, [.startRevert .postgresql, .revertOk], .ok ()) := by
  constructor
  · exact (revertLastMigration_behaviour cmOk .mongodb sNoneExecuted okHandle rfl).1 rfl
  · exact (revertLastMigration_behaviour cmOk .postgresql
      { pending := [], executed := [uT1] } okHandle rfl).2 [] uT1 rfl rfl

/-- C7 counterexample: with a PostgreSQL handle whose driver-side close
rejects and a healthy MongoDB handle injected, shutdown records only the
PostgreSQL close attempt — the failure prevents the MongoDB close from
ever being attempted, contradicting the best-effort-per-handle claim. -/
theorem shutdown_not_best_effort_counterexample :
    (onModuleDestroy cmBadPgClose).2.1 = [CloseEvent.pgCloseAttempt] ∧
    CloseEvent.mongoCloseAttempt ∉ (onModuleDestroy cmBadPgClose).2.1 :=
  ⟨rfl, by decide⟩

/-- C7 (amended): `shutdown` (the `onModuleDestroy` hook) always completes
normally — any failure inside `closeConnections` is caught and logged,
never re-raised — but it is not best-effort per handle: when the
PostgreSQL close fails, `closeConnections` aborts with that failure before
the MongoDB close is attempted. -/
theorem shutdown_completes_swallowing_errors (m : ConnectionManager) :
    (onModuleDestroy m).2.2 = .ok () ∧
    (∀ h, m.postgresEm = some h → h.closeFails = true →
      (onModuleDestroy m).2.1 = [CloseEvent.pgCloseAttempt] ∧
      (closeConnections m).2.2 = .error (.driver "postgres close failed")) := by
  constructor
  · unfold onModuleDestroy
    rcases closeConnections m with ⟨m1, t, r⟩
    rfl
  · intro h hm hfail
    have hcp : closePostgres m = (m, [.pgCloseAttempt], .error (.driver "postgres close failed")) := by
      unfold closePostgres
      rw [hm]
      simp [hfail]
    have hcc : closeConnections m = (m, [.pgCloseAttempt], .error (.driver "postgres close failed")) := by
      unfold closeConnections
      rw [hcp]
    constructor
    · unfold onModuleDestroy
      rw [hcc]
    · rw [hcc]

/-- Witness for C7 (amended) at a concrete input: the hook returns
normally even though the inner close sequence failed. -/
theorem shutdown_completes_witness :
    (onModuleDestroy cmBadPgClose).2.2 = .ok () ∧
    (closeConnections cmBadPgClose).2.2 = .error (.driver "postgres close failed") := by
  have h := shutdown_completes_swallowing_errors cmBadPgClose
  exact ⟨h.1, (h.2 badCloseHandle rfl rfl).2⟩

/-- C8: the health checks and the file-existence check never throw — for
every registry state both `isHealthy` variants return a boolean
(`Except.isOk`), with any probe failure reported as `false`; and
`fileExists` maps any thrown error of the underlying existence primitive
to `false` and is itself error-free on every filesystem state. -/
theorem health_checks_and_fileExists_never_throw :
    (∀ m : ConnectionManager,
      (isPostgresHealthy m).isOk = true ∧ (isMongoHealthy m).isOk = true ∧
      (∀ e, probePostgres m = .error e → isPostgresHealthy m = .ok false) ∧
      (∀ e, probeMongo m = .error e → isMongoHealthy m = .ok false)) ∧
    (∀ check : Except DbError Bool,
      (fileExistsImpl check).isOk = true ∧
      (∀ e, check = .error e → fileExistsImpl check = .ok false)) ∧
    (∀ fs p, (fileExists fs p).isOk = true) := by
  refine ⟨?_, ?_, ?_⟩
  · intro m
    refine ⟨?_, ?_, ?_, ?_⟩
    · unfold isPostgresHealthy
      cases probePostgres m <;> rfl
    · unfold isMongoHealthy
      cases probeMongo m <;> rfl
    · intro e he; unfold isPostgresHealthy; rw [he]
    · intro e he; unfold isMongoHealthy; rw [he]
  · intro check
    constructor
    · unfold fileExistsImpl
      cases check <;> rfl
    · intro e he; unfold fileExistsImpl; rw [he]
  · intro fs p; rfl

/-- Witness for C8 at concrete inputs: a rejecting probe yields `false`
rather than an error, and a throwing existence primitive yields `false`. -/
theorem health_never_throw_witness :
    isPostgresHealthy cmBadProbe = .ok false ∧
    fileExistsImpl (.error (.driver "EPERM")) = .ok false := by
  have h := health_checks_and_fileExists_never_throw
  exact ⟨(h.1 cmBadProbe).2.2.1 (.driver "SELECT 1 failed") rfl,
         (h.2.1 (.error (.driver "EPERM"))).2 (.driver "EPERM") rfl⟩

/-- C9: for every path at which a file already exists, `createFile` with
`override = false` returns normally, leaves the whole file map — in
particular the existing content — unchanged, and performs no write. -/
theorem createFile_no_overwrite (fs : FileSystem) (p c : String)
    (hex : (fs.files p).isSome = true) :
    (createFile fs p c false).1.files = fs.files ∧
    (createFile fs p c false).2.2 = .ok () ∧
    (∀ q d, FsEvent.wroteFile q d ∉ (createFile fs p c false).2.1) := by
  have hb : fileExistsB fs p = true := by
    unfold fileExistsB fileExists fileExistsImpl
    simp [hex]
  have hcond : (!false && fileExistsB fs p) = true := by simp [hb]
  unfold createFile
  rw [if_pos hcond]
  refine ⟨rfl, rfl, ?_⟩
  intro q d hmem
  simp at hmem

/-- Witness for C9 at a concrete input: the pre-existing content of the
file survives the `override = false` call untouched. -/
theorem createFile_no_overwrite_witness :
    (createFile fsOne "m.ts" "new" false).1.files "m.ts" = some "old" ∧
    (createFile fsOne "m.ts" "new" false).2.2 = .ok () := by
  have h := createFile_no_overwrite fsOne "m.ts" "new" (by simp [fsOne])
  constructor
  · rw [h.1]; rfl
  · exact h.2.1

/-- C10: for every database target and every environment outcome of the
ORM-side migration generation, `generateMigration` and `createMigration`
called with the empty name string return normally with only the
name-required log line — no error is raised, the ORM is never invoked and
no migration file is generated or created. -/
theorem emptyName_silent_noop (m : ConnectionManager) (db : DatabaseTarget)
    (gen : Except DbError (Option String)) :
    generateMigration m db "" gen = ([.nameRequired], .ok ()) ∧
    createMigration m db "" gen = ([.nameRequired], .ok ()) :=
  ⟨rfl, rfl⟩

end HL8
